import Mathlib

/-!
Shallow embedding of the remote-registry layer of the rugged repository
(src/ext/rugged/rugged_remote_collection.c) together with a model of its
external collaborators (the libgit2 configuration store and the repository
liveness check), which the spec describes only at the boundary.

The C file is Ruby binding glue: each binding function checks the bound
repository, checks argument types, calls into the store, and converts
store error codes into raised exceptions.  We embed each binding as a pure
Lean function over explicit arguments: the repository liveness flag, the
store (either an abstract oracle function or a concrete association-list
state), and the caller-supplied visitor for the iteration entry points.
Ruby exceptions become values of an error type; Ruby's TypeError raised by
Check_Type and by the delete argument check is the spec's InvalidArgument
class.
-/

deriving instance DecidableEq for Except

namespace Rugged

/-- Error codes signalled by the underlying store (libgit2), as classified
by the spec's boundary section: NotFound (GIT_ENOTFOUND), AlreadyExists
(GIT_EEXISTS), InvalidSpec (malformed name/url rejected by the engine),
and an opaque StoreError for I/O or corruption. -/
inductive GitError : Type
  | notFound
  | alreadyExists
  | invalidSpec
  | storeError
  deriving DecidableEq

/-- A materialized remote as returned to the caller (rugged_remote_new):
its name (absent for anonymous remotes) and its fetch url.  Refspecs play
no role in any binding in this file and are omitted. -/
structure RemoteRecord : Type where
  name : Option String
  url  : String
  deriving DecidableEq

/-- Outcome classification of a registry binding call.  repoUnavailable is
the failure of the repository liveness check (rugged_check_repo);
invalidArgument covers Ruby TypeError from Check_Type / the delete
argument-shape check and the url validator's rejection; git wraps a store
error code raised via rugged_exception_check. -/
inductive OpFailure : Type
  | repoUnavailable
  | invalidArgument
  | git (e : GitError)
  deriving DecidableEq

/-- Outcome classification for the iteration bindings, which can
additionally end with the visitor's own failure (a Ruby exception or break
captured by rb_protect and re-raised by rb_jump_tag), carried unchanged. -/
inductive IterFailure (ε : Type) : Type
  | repoUnavailable
  | git (e : GitError)
  | visitor (e : ε)
  deriving DecidableEq

/-- The Ruby values the bindings distinguish: a String, a Rugged::Remote
instance (carrying its record), nil, and any other object. -/
inductive RValue : Type
  | str (s : String)
  | remoteHandle (r : RemoteRecord)
  | nilv
  | other
  deriving DecidableEq

/-- Result of a name-only iteration (each_name with a block): its outcome
and the exact sequence of names passed to the visitor, in order. -/
structure NameIterResult (ε : Type) : Type where
  outcome : Except (IterFailure ε) Unit
  visits  : List String
  deriving DecidableEq

/-- Result of a full-handle iteration (each with a block): its outcome,
the exact sequence of names for which a store load (git_remote_load) was
attempted, and the exact sequence of records passed to the visitor. -/
structure FullIterResult (ε : Type) : Type where
  outcome : Except (IterFailure ε) Unit
  loads   : List String
  visits  : List RemoteRecord
  deriving DecidableEq

/-- The name-only loop of rb_git_remote_collection__each (only_names
branch): for each snapshot name, in order, yield the name to the visitor
under rb_protect; the loop guard !exception stops at the first visitor
failure, which rb_jump_tag then re-raises unchanged. -/
def eachNamesLoop (visit : String → Except ε Unit) :
    List String → NameIterResult ε
  | [] => ⟨.ok (), []⟩
  | n :: rest =>
    match visit n with
    | .error ex => ⟨.error (.visitor ex), [n]⟩
    | .ok _ =>
      let t := eachNamesLoop visit rest
      ⟨t.outcome, n :: t.visits⟩

/-- The full-handle loop of rb_git_remote_collection__each: for each
snapshot name, in order, attempt git_remote_load; on load failure the
loop guard !error exits and rugged_exception_check raises the store
error; on success the record is yielded under rb_protect and the guard
!exception exits at the first visitor failure, re-raised by rb_jump_tag. -/
def eachFullLoop (load : String → Except GitError RemoteRecord)
    (visit : RemoteRecord → Except ε Unit) :
    List String → FullIterResult ε
  | [] => ⟨.ok (), [], []⟩
  | n :: rest =>
    match load n with
    | .error e => ⟨.error (.git e), [n], []⟩
    | .ok r =>
      match visit r with
      | .error ex => ⟨.error (.visitor ex), [n], [r]⟩
      | .ok _ =>
        let t := eachFullLoop load visit rest
        ⟨t.outcome, n :: t.loads, r :: t.visits⟩

/-- rb_git_remote_collection_each_name with a block: check the repository
is live (rugged_check_repo, modelled from the spec as failing with
RepositoryUnavailable), snapshot the name list (git_remote_list, given
here as its result), then run the name-only loop. -/
def collectionEachName (repoValid : Bool)
    (listResult : Except GitError (List String))
    (visit : String → Except ε Unit) : NameIterResult ε :=
  if repoValid = false then ⟨.error .repoUnavailable, []⟩
  else
    match listResult with
    | .error e => ⟨.error (.git e), []⟩
    | .ok names => eachNamesLoop visit names

/-- rb_git_remote_collection_each with a block: check the repository is
live, snapshot the name list, then run the full-handle loop with the
given per-name load behaviour (git_remote_load may meanwhile report
NotFound for a snapshotted name that was concurrently deleted). -/
def collectionEach (repoValid : Bool)
    (listResult : Except GitError (List String))
    (load : String → Except GitError RemoteRecord)
    (visit : RemoteRecord → Except ε Unit) : FullIterResult ε :=
  if repoValid = false then ⟨.error .repoUnavailable, [], []⟩
  else
    match listResult with
    | .error e => ⟨.error (.git e), [], []⟩
    | .ok names => eachFullLoop load visit names

/-- rb_git_remote_collection_aref (the [] lookup): check the repository is
live, check the argument is a string, call git_remote_load; a NotFound
error code is converted to nil, any other error code is raised, a
successful load is returned as a handle. -/
def collectionAref (repoValid : Bool)
    (load : String → Except GitError RemoteRecord)
    (arg : RValue) : Except OpFailure (Option RemoteRecord) :=
  if repoValid = false then .error .repoUnavailable
  else
    match arg with
    | .str name =>
      match load name with
      | .error .notFound => .ok none
      | .error e => .error (.git e)
      | .ok r => .ok (some r)
    | _ => .error .invalidArgument

/-- The persisted remote configuration, modelled from the spec as the
sequence of (name, fetch url) records in creation order.  The store is an
external collaborator (libgit2) described by the spec only at its
boundary. -/
abbrev ConfigStore : Type := List (String × String)

/-- Modelled from the spec: listRemoteNames(repo) returns the complete
current list of remote names (the iteration snapshot source). -/
def listRemoteNames (s : ConfigStore) : List String := s.map Prod.fst

/-- Modelled from the spec: loadRemote(repo, name) (git_remote_load)
fails with NotFound if absent, otherwise yields the persisted record. -/
def loadRemote (s : ConfigStore) (n : String) : Except GitError RemoteRecord :=
  match List.lookup n s with
  | some url => .ok ⟨some n, url⟩
  | none => .error .notFound

/-- Modelled from the spec: createRemote(repo, name, url)
(git_remote_create) requires a non-empty name, fails with AlreadyExists
if the name already denotes a remote, and otherwise durably appends the
new record, returning the materialized remote. -/
def createRemote (s : ConfigStore) (n url : String) :
    Except GitError (RemoteRecord × ConfigStore) :=
  if n = "" then .error .invalidSpec
  else
    match List.lookup n s with
    | some _ => .error .alreadyExists
    | none => .ok (⟨some n, url⟩, s ++ [(n, url)])

/-- Modelled from the spec: deleteRemote(repo, name) (git_remote_delete)
removes the record for the name, surfacing the store's own outcome for a
missing name (NotFound) without normalization by the registry layer. -/
def deleteRemote (s : ConfigStore) (n : String) : Except GitError ConfigStore :=
  match List.lookup n s with
  | some _ => .ok (s.filter (fun p => p.1 ≠ n))
  | none => .error .notFound

/-- rb_git_remote_collection_create: check the repository is live, check
both arguments are strings, validate the url (rugged_validate_remote_url,
modelled from the spec as an InvalidArgument failure on rejection), then
call git_remote_create; the store's error code, if any, is raised and the
store is unchanged, otherwise the new record is returned alongside the
updated store. -/
def registryCreate (repoValid : Bool) (validUrl : String → Bool)
    (s : ConfigStore) (nameArg urlArg : RValue) :
    Except OpFailure RemoteRecord × ConfigStore :=
  if repoValid = false then (.error .repoUnavailable, s)
  else
    match nameArg with
    | .str name =>
      match urlArg with
      | .str url =>
        if validUrl url = false then (.error .invalidArgument, s)
        else
          match createRemote s name url with
          | .error e => (.error (.git e), s)
          | .ok (r, s2) => (.ok r, s2)
      | _ => (.error .invalidArgument, s)
    | _ => (.error .invalidArgument, s)

/-- rb_git_remote_collection_create_anonymous: check the repository is
live, check the argument is a string, validate the url, then call
git_remote_create_anonymous — modelled from the spec: it produces a
RemoteHandle with no name and writes nothing to the store. -/
def registryCreateAnonymous (repoValid : Bool) (validUrl : String → Bool)
    (s : ConfigStore) (urlArg : RValue) :
    Except OpFailure RemoteRecord × ConfigStore :=
  if repoValid = false then (.error .repoUnavailable, s)
  else
    match urlArg with
    | .str url =>
      if validUrl url = false then (.error .invalidArgument, s)
      else (.ok ⟨none, url⟩, s)
    | _ => (.error .invalidArgument, s)

/-- The lookup binding applied to the concrete store model. -/
def registryAref (repoValid : Bool) (s : ConfigStore) (arg : RValue) :
    Except OpFailure (Option RemoteRecord) :=
  collectionAref repoValid (loadRemote s) arg

/-- The argument resolution at the top of rb_git_remote_collection_delete:
a Rugged::Remote instance is replaced by the result of its name method,
which is its name string, or nil for an anonymous remote. -/
def resolveDeleteArg : RValue → RValue
  | .remoteHandle r =>
    match r.name with
    | some n => .str n
    | none => .nilv
  | v => v

/-- rb_git_remote_collection_delete: resolve a Rugged::Remote argument to
its name, raise TypeError (the spec's InvalidArgument class) unless the
resolved argument is a string — this check precedes the repository
liveness check — then check the repository is live and call
git_remote_delete, surfacing the store's outcome as-is. -/
def registryDelete (repoValid : Bool) (s : ConfigStore) (arg : RValue) :
    Except OpFailure Unit × ConfigStore :=
  match resolveDeleteArg arg with
  | .str name =>
    if repoValid = false then (.error .repoUnavailable, s)
    else
      match deleteRemote s name with
      | .error e => (.error (.git e), s)
      | .ok s2 => (.ok (), s2)
  | _ => (.error .invalidArgument, s)

lemma collectionEachName_live (visit : String → Except ε Unit)
    (names : List String) :
    collectionEachName true (.ok names) visit = eachNamesLoop visit names := rfl

lemma collectionEach_live (load : String → Except GitError RemoteRecord)
    (visit : RemoteRecord → Except ε Unit) (names : List String) :
    collectionEach true (.ok names) load visit = eachFullLoop load visit names := rfl

lemma eachNamesLoop_ok (visit : String → Except ε Unit)
    (names : List String) (h : ∀ n ∈ names, visit n = .ok ()) :
    eachNamesLoop visit names = ⟨.ok (), names⟩ := by
  induction names with
  | nil => rfl
  | cons n rest ih =>
    have hn : visit n = .ok () := h n (by simp)
    have hrest := ih (fun m hm => h m (by simp [hm]))
    simp [eachNamesLoop, hn, hrest]

lemma eachNamesLoop_stop (visit : String → Except ε Unit)
    (pre : List String) (n : String) (post : List String) (ex : ε)
    (hpre : ∀ m ∈ pre, visit m = .ok ()) (hn : visit n = .error ex) :
    eachNamesLoop visit (pre ++ n :: post) = ⟨.error (.visitor ex), pre ++ [n]⟩ := by
  induction pre with
  | nil => simp [eachNamesLoop, hn]
  | cons m rest ih =>
    have hm : visit m = .ok () := hpre m (by simp)
    have hrest := ih (fun m2 hm2 => hpre m2 (by simp [hm2]))
    simp [eachNamesLoop, hm, hrest]

lemma eachFullLoop_load_error (load : String → Except GitError RemoteRecord)
    (visit : RemoteRecord → Except ε Unit)
    (pre : List String) (n : String) (post : List String) (e : GitError)
    (hpre : ∀ m ∈ pre, ∃ r, load m = .ok r ∧ visit r = .ok ())
    (hn : load n = .error e) :
    (eachFullLoop load visit (pre ++ n :: post)).outcome = .error (.git e) ∧
    (eachFullLoop load visit (pre ++ n :: post)).loads = pre ++ [n] ∧
    ∀ r ∈ (eachFullLoop load visit (pre ++ n :: post)).visits,
      ∃ m ∈ pre, load m = .ok r := by
  induction pre with
  | nil => refine ⟨?_, ?_, ?_⟩ <;> simp [eachFullLoop, hn]
  | cons m rest ih =>
    obtain ⟨r0, hr0, hv0⟩ := hpre m (by simp)
    have ihr := ih (fun m2 hm2 => hpre m2 (by simp [hm2]))
    refine ⟨?_, ?_, ?_⟩
    · simp [eachFullLoop, hr0, hv0, ihr.1]
    · simp [eachFullLoop, hr0, hv0, ihr.2.1]
    · intro r hr
      simp only [eachFullLoop, hr0, hv0, List.cons_append] at hr
      simp only [List.mem_cons] at hr
      cases hr with
      | inl h => exact ⟨m, by simp, h.symm ▸ hr0⟩
      | inr h =>
        obtain ⟨m2, hm2, hl2⟩ := ihr.2.2 r h
        exact ⟨m2, by simp [hm2], hl2⟩

lemma eachFullLoop_visit_error (load : String → Except GitError RemoteRecord)
    (visit : RemoteRecord → Except ε Unit)
    (pre : List String) (n : String) (post : List String)
    (r : RemoteRecord) (ex : ε)
    (hpre : ∀ m ∈ pre, ∃ r2, load m = .ok r2 ∧ visit r2 = .ok ())
    (hn : load n = .ok r) (hv : visit r = .error ex) :
    (eachFullLoop load visit (pre ++ n :: post)).outcome = .error (.visitor ex) ∧
    (eachFullLoop load visit (pre ++ n :: post)).loads = pre ++ [n] ∧
    ∀ rr ∈ (eachFullLoop load visit (pre ++ n :: post)).visits,
      (∃ m ∈ pre, load m = .ok rr) ∨ rr = r := by
  induction pre with
  | nil => refine ⟨?_, ?_, ?_⟩ <;> simp [eachFullLoop, hn, hv]
  | cons m rest ih =>
    obtain ⟨r0, hr0, hv0⟩ := hpre m (by simp)
    have ihr := ih (fun m2 hm2 => hpre m2 (by simp [hm2]))
    refine ⟨?_, ?_, ?_⟩
    · simp [eachFullLoop, hr0, hv0, ihr.1]
    · simp [eachFullLoop, hr0, hv0, ihr.2.1]
    · intro rr hrr
      simp only [eachFullLoop, hr0, hv0, List.cons_append] at hrr
      simp only [List.mem_cons] at hrr
      cases hrr with
      | inl h => exact Or.inl ⟨m, by simp, h.symm ▸ hr0⟩
      | inr h =>
        cases ihr.2.2 rr h with
        | inl h2 =>
          obtain ⟨m2, hm2, hl2⟩ := h2
          exact Or.inl ⟨m2, by simp [hm2], hl2⟩
        | inr h2 => exact Or.inr h2

lemma lookup_append_self (s : ConfigStore) (n u : String)
    (h : List.lookup n s = none) :
    List.lookup n (s ++ [(n, u)]) = some u := by
  induction s with
  | nil => simp [List.lookup]
  | cons p rest ih =>
    obtain ⟨k, v⟩ := p
    by_cases hk : n = k
    · subst hk
      simp [List.lookup] at h
    · simp only [List.cons_append, List.lookup]
      simp only [List.lookup] at h
      have hbeq : (n == k) = false := by
        simp [hk]
      rw [hbeq] at h ⊢
      exact ih h

/-- Claim C1: during full-handle iteration with a visitor, if materializing
a RemoteHandle for a snapshot name fails — with any store error, including
the NotFound produced when the name was deleted between the snapshot and
its materialization step — then iteration stops immediately: no later
snapshot name is materialized (the load trace ends at the failing name)
or visited (every visited record came from a load of an earlier name), and
that store failure is the iteration's outcome. -/
theorem iterate_aborts_on_materialization_failure
    (ε : Type) (load : String → Except GitError RemoteRecord)
    (visit : RemoteRecord → Except ε Unit)
    (pre : List String) (n : String) (post : List String) (e : GitError)
    (hpre : ∀ m ∈ pre, ∃ r, load m = .ok r ∧ visit r = .ok ())
    (hn : load n = .error e) :
    (collectionEach true (.ok (pre ++ n :: post)) load visit).outcome
        = .error (.git e) ∧
    (collectionEach true (.ok (pre ++ n :: post)) load visit).loads
        = pre ++ [n] ∧
    ∀ r ∈ (collectionEach true (.ok (pre ++ n :: post)) load visit).visits,
      ∃ m ∈ pre, load m = .ok r := by
  rw [collectionEach_live]
  exact eachFullLoop_load_error load visit pre n post e hpre hn

/-- Load behaviour used in concrete iteration scenarios: every name is
present with url "u", except "b", which has been concurrently deleted. -/
def demoLoad : String → Except GitError RemoteRecord := fun m =>
  if m = "b" then .error .notFound else .ok ⟨some m, "u"⟩

/-- A visitor that always succeeds. -/
def demoOkVisit : RemoteRecord → Except Unit Unit := fun _ => .ok ()

/-- Witness for C1: iterating over snapshot ["a", "b", "c"] where "b" was
concurrently deleted aborts with NotFound after loading only "a" and "b". -/
theorem iterate_aborts_on_materialization_failure_witness :
    (collectionEach true (.ok (["a"] ++ "b" :: ["c"])) demoLoad demoOkVisit).outcome
        = .error (.git .notFound) ∧
    (collectionEach true (.ok (["a"] ++ "b" :: ["c"])) demoLoad demoOkVisit).loads
        = ["a"] ++ ["b"] := by
  have h := iterate_aborts_on_materialization_failure Unit demoLoad demoOkVisit
    ["a"] "b" ["c"] .notFound
    (by
      intro m hm
      simp only [List.mem_singleton] at hm
      subst hm
      exact ⟨⟨some "a", "u"⟩, by decide, by decide⟩)
    (by decide)
  exact ⟨h.1, h.2.1⟩

/-- Claim C2: in both iteration modes with a visitor supplied, if the
visitor fails (or requests early termination) on a snapshot name, no
further name is visited after that one — in name-only mode the visit
trace is exactly the earlier names followed by the failing one, in
full-handle mode the load trace likewise ends at the failing name and
every visited record came from it or an earlier name — and the visitor's
own failure value is the call's outcome, unchanged. -/
theorem visitor_failure_short_circuits
    (ε : Type) (nameVisit : String → Except ε Unit)
    (load : String → Except GitError RemoteRecord)
    (fullVisit : RemoteRecord → Except ε Unit)
    (pre : List String) (n : String) (post : List String)
    (ex ex2 : ε) (r : RemoteRecord)
    (h1 : ∀ m ∈ pre, nameVisit m = .ok ())
    (h2 : nameVisit n = .error ex)
    (h3 : ∀ m ∈ pre, ∃ r2, load m = .ok r2 ∧ fullVisit r2 = .ok ())
    (h4 : load n = .ok r) (h5 : fullVisit r = .error ex2) :
    collectionEachName true (.ok (pre ++ n :: post)) nameVisit
        = ⟨.error (.visitor ex), pre ++ [n]⟩ ∧
    (collectionEach true (.ok (pre ++ n :: post)) load fullVisit).outcome
        = .error (.visitor ex2) ∧
    (collectionEach true (.ok (pre ++ n :: post)) load fullVisit).loads
        = pre ++ [n] ∧
    ∀ rr ∈ (collectionEach true (.ok (pre ++ n :: post)) load fullVisit).visits,
      (∃ m ∈ pre, load m = .ok rr) ∨ rr = r := by
  rw [collectionEachName_live, collectionEach_live]
  exact ⟨eachNamesLoop_stop nameVisit pre n post ex h1 h2,
    eachFullLoop_visit_error load fullVisit pre n post r ex2 h3 h4 h5⟩

/-- A name visitor that fails on "b" and succeeds elsewhere. -/
def demoFailNameVisit : String → Except String Unit := fun m =>
  if m = "b" then .error "boom" else .ok ()

/-- A record visitor that fails on the record named "b". -/
def demoFailFullVisit : RemoteRecord → Except String Unit := fun r =>
  if r.name = some "b" then .error "boom" else .ok ()

/-- Load behaviour where every name is present with url "u". -/
def demoLoadAll : String → Except GitError RemoteRecord := fun m =>
  .ok ⟨some m, "u"⟩

/-- Witness for C2: on snapshot ["a", "b", "c"] a visitor failing at "b"
stops both iteration modes after "b" with the failure as outcome. -/
theorem visitor_failure_short_circuits_witness :
    collectionEachName true (.ok (["a"] ++ "b" :: ["c"])) demoFailNameVisit
        = ⟨.error (.visitor "boom"), ["a"] ++ ["b"]⟩ ∧
    (collectionEach true (.ok (["a"] ++ "b" :: ["c"])) demoLoadAll
        demoFailFullVisit).outcome = .error (.visitor "boom") := by
  have h := visitor_failure_short_circuits String demoFailNameVisit demoLoadAll
    demoFailFullVisit ["a"] "b" ["c"] "boom" "boom" ⟨some "b", "u"⟩
    (by
      intro m hm
      simp only [List.mem_singleton] at hm
      subst hm
      decide)
    (by decide)
    (by
      intro m hm
      simp only [List.mem_singleton] at hm
      subst hm
      exact ⟨⟨some "a", "u"⟩, by decide, by decide⟩)
    (by decide) (by decide)
  exact ⟨h.1, h.2.1⟩

/-- Claim C3: lookup returns the absent result (nil) exactly when the
store load reports NotFound; every other store failure is raised as a
hard error rather than becoming absent, and a successful load is returned
as a present handle. -/
theorem lookup_absent_iff_notFound
    (load : String → Except GitError RemoteRecord) (name : String) :
    (collectionAref true load (.str name) = .ok none ↔
        load name = .error .notFound) ∧
    (∀ e : GitError, e ≠ .notFound → load name = .error e →
        collectionAref true load (.str name) = .error (.git e)) ∧
    (∀ r : RemoteRecord, load name = .ok r →
        collectionAref true load (.str name) = .ok (some r)) := by
  refine ⟨⟨fun h => ?_, fun h => by simp [collectionAref, h]⟩,
    fun e hne h => ?_, fun r h => by simp [collectionAref, h]⟩
  · cases hl : load name with
    | error e =>
      cases e <;> simp [collectionAref, hl] at h ⊢
    | ok r => simp [collectionAref, hl] at h
  · cases e with
    | notFound => exact absurd rfl hne
    | alreadyExists => simp [collectionAref, h]
    | invalidSpec => simp [collectionAref, h]
    | storeError => simp [collectionAref, h]

/-- Witness for C3: a load reporting NotFound yields the absent result;
a load reporting an opaque store error yields that raised error. -/
theorem lookup_absent_iff_notFound_witness :
    collectionAref true (fun _ => (.error .notFound : Except GitError RemoteRecord))
        (RValue.str "nope") = .ok none ∧
    collectionAref true (fun _ => (.error .storeError : Except GitError RemoteRecord))
        (RValue.str "x") = .error (.git .storeError) :=
  ⟨(lookup_absent_iff_notFound (fun _ => .error .notFound) "nope").1.mpr rfl,
   (lookup_absent_iff_notFound (fun _ => .error .storeError) "x").2.1
     .storeError (by decide) rfl⟩

/-- Claim C4: name-only iteration over a successfully read snapshot with a
never-failing visitor visits exactly the snapshot's names, in snapshot
order, each passed verbatim, and returns normal success; in particular an
empty snapshot gives zero visits and success. -/
theorem iterateNames_visits_snapshot
    (ε : Type) (visit : String → Except ε Unit) (names : List String)
    (h : ∀ n ∈ names, visit n = .ok ()) :
    collectionEachName true (.ok names) visit = ⟨.ok (), names⟩ := by
  rw [collectionEachName_live]
  exact eachNamesLoop_ok visit names h

/-- A name visitor that always succeeds. -/
def demoOkNameVisit : String → Except Unit Unit := fun _ => .ok ()

/-- Witness for C4: the snapshot ["a", "b", "c"] is visited exactly and in
order with a normal outcome, and the empty snapshot gives zero visits. -/
theorem iterateNames_visits_snapshot_witness :
    collectionEachName true (.ok ["a", "b", "c"]) demoOkNameVisit
        = ⟨.ok (), ["a", "b", "c"]⟩ ∧
    collectionEachName true (.ok []) demoOkNameVisit = ⟨.ok (), []⟩ :=
  ⟨iterateNames_visits_snapshot Unit demoOkNameVisit ["a", "b", "c"]
      (fun _ _ => rfl),
   iterateNames_visits_snapshot Unit demoOkNameVisit []
      (fun n hn => absurd hn (List.not_mem_nil n))⟩

/-- Claim C5 as stated is false: delete performs its argument type/shape
check before the repository liveness check, so on a registry whose
repository has been invalidated, delete applied to an argument that is
neither a string nor a named handle fails with the InvalidArgument type
error instead of RepositoryUnavailable. -/
theorem dead_repo_delete_counterexample :
    (registryDelete false [] RValue.other).1 = .error .invalidArgument ∧
    (registryDelete false [] RValue.other).1 ≠ .error .repoUnavailable := by
  decide

/-- Claim C5 (amended): every registry operation checks the repository's
liveness before making any ConfigStore call; create, create_anonymous,
lookup and both iteration modes perform this check first and fail with
RepositoryUnavailable on a dead repository, with the store untouched (the
outcome and post-state are independent of the store and of the
list/load behaviour); delete performs its argument type/shape check
first, so on a dead repository it fails with RepositoryUnavailable when
the argument is a string or a named handle and with InvalidArgument
otherwise — in every case without any store call. -/
theorem operations_check_liveness_before_store
    (ε : Type) (validUrl : String → Bool) (s : ConfigStore)
    (nameArg urlArg anyArg : RValue) (name url : String)
    (listResult : Except GitError (List String))
    (load : String → Except GitError RemoteRecord)
    (nameVisit : String → Except ε Unit)
    (fullVisit : RemoteRecord → Except ε Unit) :
    registryCreate false validUrl s nameArg urlArg
        = (.error .repoUnavailable, s) ∧
    registryCreateAnonymous false validUrl s urlArg
        = (.error .repoUnavailable, s) ∧
    collectionAref false load anyArg = .error .repoUnavailable ∧
    collectionEachName false listResult nameVisit
        = ⟨.error .repoUnavailable, []⟩ ∧
    collectionEach false listResult load fullVisit
        = ⟨.error .repoUnavailable, [], []⟩ ∧
    registryDelete false s (.str name) = (.error .repoUnavailable, s) ∧
    registryDelete false s (.remoteHandle ⟨some name, url⟩)
        = (.error .repoUnavailable, s) ∧
    registryDelete false s (.remoteHandle ⟨none, url⟩)
        = (.error .invalidArgument, s) ∧
    registryDelete false s RValue.nilv = (.error .invalidArgument, s) ∧
    registryDelete false s RValue.other = (.error .invalidArgument, s) :=
  ⟨rfl, rfl, rfl, rfl, rfl, rfl, rfl, rfl, rfl, rfl⟩

/-- Claim C6: delete accepts a name string or a RemoteHandle — a named
handle behaves exactly as its name string, whose store outcome (success
or error) is surfaced as-is — and fails with InvalidArgument when the
argument is neither a string nor a handle carrying a name; in particular
an anonymous handle (name absent) is rejected with InvalidArgument. -/
theorem delete_argument_contract
    (repoValid : Bool) (s : ConfigStore) (n url : String) :
    registryDelete repoValid s (.remoteHandle ⟨some n, url⟩)
        = registryDelete repoValid s (.str n) ∧
    (∀ s2 : ConfigStore, deleteRemote s n = .ok s2 →
        registryDelete true s (.str n) = (.ok (), s2)) ∧
    (∀ e : GitError, deleteRemote s n = .error e →
        registryDelete true s (.str n) = (.error (.git e), s)) ∧
    registryDelete repoValid s (.remoteHandle ⟨none, url⟩)
        = (.error .invalidArgument, s) ∧
    registryDelete repoValid s RValue.nilv = (.error .invalidArgument, s) ∧
    registryDelete repoValid s RValue.other = (.error .invalidArgument, s) := by
  refine ⟨rfl, fun s2 h => ?_, fun e h => ?_, rfl, rfl, rfl⟩
  · simp [registryDelete, resolveDeleteArg, h]
  · simp [registryDelete, resolveDeleteArg, h]

/-- Witness for C6: deleting via a named handle removes the record just
as deleting by name would, and deleting an anonymous handle fails with
InvalidArgument leaving the store unchanged. -/
theorem delete_argument_contract_witness :
    registryDelete true [("origin", "u")]
        (RValue.remoteHandle ⟨some "origin", "u2"⟩) = (.ok (), []) ∧
    registryDelete true [("origin", "u")]
        (RValue.remoteHandle ⟨none, "u2"⟩)
        = (.error .invalidArgument, [("origin", "u")]) := by
  have h := delete_argument_contract true [("origin", "u")] "origin" "u2"
  refine ⟨?_, h.2.2.2.1⟩
  rw [h.1]
  exact h.2.1 [] (by decide)

/-- Claim C7: create_anonymous on a url passing validation returns a
handle with no name and that url, leaves the store exactly as it was (no
persisted record, no side effect), and hence the store's name list — the
source of every iteration snapshot — is unchanged, so the anonymous
remote never appears in it. -/
theorem create_anonymous_is_pure
    (validUrl : String → Bool) (s : ConfigStore) (url : String)
    (h : validUrl url = true) :
    registryCreateAnonymous true validUrl s (.str url) = (.ok ⟨none, url⟩, s) ∧
    listRemoteNames (registryCreateAnonymous true validUrl s (.str url)).2
        = listRemoteNames s := by
  have hmain : registryCreateAnonymous true validUrl s (.str url)
      = (.ok ⟨none, url⟩, s) := by
    simp [registryCreateAnonymous, h]
  exact ⟨hmain, by rw [hmain]⟩

/-- Url validation used in concrete scenarios: any non-empty url passes. -/
def demoValidUrl : String → Bool := fun u => decide (u ≠ "")

/-- Witness for C7: an anonymous remote created against a one-remote
store leaves the store and its name list unchanged. -/
theorem create_anonymous_is_pure_witness :
    registryCreateAnonymous true demoValidUrl [("origin", "u")]
        (RValue.str "git:x") = (.ok ⟨none, "git:x"⟩, [("origin", "u")]) ∧
    listRemoteNames (registryCreateAnonymous true demoValidUrl [("origin", "u")]
        (RValue.str "git:x")).2 = listRemoteNames [("origin", "u")] :=
  create_anonymous_is_pure demoValidUrl [("origin", "u")] "git:x" (by decide)

/-- Claim C8: for a valid (name, url) pair whose name does not already
denote a remote, create(name, url) succeeds with a handle carrying that
name and url, and a subsequent lookup of that name on the resulting store
returns a handle with that name and url. -/
theorem create_lookup_round_trip
    (validUrl : String → Bool) (s : ConfigStore) (name url : String)
    (hname : name ≠ "") (hurl : validUrl url = true)
    (habsent : List.lookup name s = none) :
    (registryCreate true validUrl s (.str name) (.str url)).1
        = .ok ⟨some name, url⟩ ∧
    registryAref true (registryCreate true validUrl s (.str name) (.str url)).2
        (.str name) = .ok (some ⟨some name, url⟩) := by
  have hcreate : createRemote s name url = .ok (⟨some name, url⟩, s ++ [(name, url)]) := by
    simp [createRemote, hname, habsent]
  have hmain : registryCreate true validUrl s (.str name) (.str url)
      = (.ok ⟨some name, url⟩, s ++ [(name, url)]) := by
    simp [registryCreate, hurl, hcreate]
  refine ⟨by rw [hmain], ?_⟩
  rw [hmain]
  simp [registryAref, collectionAref, loadRemote, lookup_append_self s name url habsent]

/-- Witness for C8: creating "origin" in an empty store and looking it up
returns the handle with name "origin" and url "u". -/
theorem create_lookup_round_trip_witness :
    (registryCreate true demoValidUrl [] (RValue.str "origin")
        (RValue.str "u")).1 = .ok ⟨some "origin", "u"⟩ ∧
    registryAref true (registryCreate true demoValidUrl []
        (RValue.str "origin") (RValue.str "u")).2 (RValue.str "origin")
        = .ok (some ⟨some "origin", "u"⟩) :=
  create_lookup_round_trip demoValidUrl [] "origin" "u"
    (by decide) (by decide) (by decide)

/-- Claim C9: create with a name that already denotes a remote (and an
otherwise valid url) fails with AlreadyExists, the store is unchanged by
the failed call, and the existing record still maps the name to its
original url. -/
theorem create_duplicate_rejected
    (validUrl : String → Bool) (s : ConfigStore) (name url0 url2 : String)
    (hname : name ≠ "") (hurl : validUrl url2 = true)
    (hpresent : List.lookup name s = some url0) :
    registryCreate true validUrl s (.str name) (.str url2)
        = (.error (.git .alreadyExists), s) ∧
    List.lookup name
        (registryCreate true validUrl s (.str name) (.str url2)).2
        = some url0 := by
  have hcreate : createRemote s name url2 = .error .alreadyExists := by
    simp [createRemote, hname, hpresent]
  have hmain : registryCreate true validUrl s (.str name) (.str url2)
      = (.error (.git .alreadyExists), s) := by
    simp [registryCreate, hurl, hcreate]
  exact ⟨hmain, by rw [hmain]; exact hpresent⟩

/-- Witness for C9: re-creating "origin" with a second url fails with
AlreadyExists and the original record is intact. -/
theorem create_duplicate_rejected_witness :
    registryCreate true demoValidUrl [("origin", "u1")]
        (RValue.str "origin") (RValue.str "u2")
        = (.error (.git .alreadyExists), [("origin", "u1")]) ∧
    List.lookup "origin" (registryCreate true demoValidUrl [("origin", "u1")]
        (RValue.str "origin") (RValue.str "u2")).2 = some "u1" :=
  create_duplicate_rejected demoValidUrl [("origin", "u1")] "origin" "u1" "u2"
    (by decide) (by decide) (by decide)

/-- Claim C10: in delete, the argument type/shape check precedes the
repository liveness check: for every argument that is neither a string
nor a handle carrying a name, the call fails with the InvalidArgument
type error even on an invalidated repository — never with
RepositoryUnavailable — and the store is untouched. -/
theorem delete_type_check_precedes_liveness
    (s : ConfigStore) (url : String) :
    registryDelete false s RValue.nilv = (.error .invalidArgument, s) ∧
    registryDelete false s RValue.other = (.error .invalidArgument, s) ∧
    registryDelete false s (.remoteHandle ⟨none, url⟩)
        = (.error .invalidArgument, s) ∧
    ∀ arg : RValue, (∀ n : String, resolveDeleteArg arg ≠ .str n) →
      registryDelete false s arg = (.error .invalidArgument, s) := by
  refine ⟨rfl, rfl, rfl, fun arg h => ?_⟩
  cases harg : arg with
  | str s0 => exact absurd rfl (harg ▸ h s0)
  | remoteHandle r =>
    obtain ⟨nm, u⟩ := r
    cases nm with
    | some n0 => exact absurd rfl (harg ▸ h n0)
    | none => rfl
  | nilv => rfl
  | other => rfl

/-- Witness for C10: deleting nil on a dead-repository registry yields
InvalidArgument with the store untouched. -/
theorem delete_type_check_precedes_liveness_witness :
    registryDelete false [("origin", "u")] RValue.nilv
        = (.error .invalidArgument, [("origin", "u")]) :=
  (delete_type_check_precedes_liveness [("origin", "u")] "u").2.2.2
    RValue.nilv (fun n h => by cases h)

end Rugged
